import Mathlib

/-!
Verification of the text-processing core of `pol.py` (Polity Concept Linker).

Python strings are modelled as `List Char` (`Str`).  Each definition below is a
shallow embedding of the corresponding Python construct in `src/pol.py`:
`search_concepts_in_file` (chapter splitting, case-insensitive matching,
snippet collection, title extraction), `create_pdf` (sanitisation, block
classification, bold-marker stripping, fault boundary) and the three
guarded calls into the external generative-text service.

External collaborators (the filesystem, the FPDF layout engine, the
generative-text service) are not part of the repository; they are passed in
as explicit function parameters, so that every property proved about the
embedded functions holds for every possible behaviour of the collaborator.
-/

/-- Python strings are sequences of characters. -/
abbrev Str := List Char

/-- Convert a Lean string literal to the `List Char` model. -/
def toL (s : String) : Str := s.toList

/-- The character class of the Python `str.strip()` default (ASCII whitespace,
as relevant to this corpus): space, tab, newline, carriage return, vertical
tab, form feed. -/
def pyIsSpace (c : Char) : Bool :=
  c = ' ' || c = '\t' || c = '\n' || c = '\r' || c = '\x0b' || c = '\x0c'

/-- Python `s.strip()`: remove leading and trailing whitespace. -/
def pyStrip (s : Str) : Str :=
  ((s.dropWhile pyIsSpace).reverse.dropWhile pyIsSpace).reverse

/-- Python `s.lower()` on the ASCII range (character-wise lowering; the corpus
and all queries in the claims are ASCII). -/
def lowerStr (s : Str) : Str := s.map Char.toLower

/-- Python `line.startswith('#')`. -/
def startsWithHash : Str → Bool
  | '#' :: _ => true
  | _ => false

/-- Python `s.startswith(('-', '*'))`. -/
def startsDash : Str → Bool
  | c :: _ => c = '-' || c = '*'
  | [] => false

/-- Python substring test `q in s`, by scanning every suffix of `s`. -/
def containsSubstr : Str → Str → Bool
  | [], q => q.isPrefixOf ([] : Str)
  | c :: t, q => q.isPrefixOf (c :: t) || containsSubstr t q

/-- The matching step of `search_concepts_in_file` (pol.py lines 36 and 43):
`query.lower() in text.lower()`. -/
def queryMatches (query text : Str) : Bool :=
  containsSubstr (lowerStr text) (lowerStr query)

/-- The literal `CHAPTER ` that begins the chapter-marker regex `CHAPTER \d+`. -/
def chapMarker : Str := ['C', 'H', 'A', 'P', 'T', 'E', 'R', ' ']

/-- Whether the string that follows `CHAPTER ` starts with a digit. -/
def digitAfter : Str → Bool
  | d :: _ => d.isDigit
  | [] => false

/-- The lookahead pattern `(?=CHAPTER \d+)` of pol.py line 30 matches at the
head of `s`: `s` starts with the literal `CHAPTER ` followed by a digit. -/
def chapterPat (s : Str) : Bool :=
  chapMarker.isPrefixOf s && digitAfter (s.drop 8)

/-- The scanning loop of `re.split((?=CHAPTER \d+), content)`: `cur` is the
piece accumulated so far; a zero-width match at the current position closes
`cur` and opens a new piece. -/
def goSplit : Str → Str → List Str
  | cur, [] => [cur]
  | cur, c :: rest =>
    if chapterPat (c :: rest) then cur :: goSplit [c] rest
    else goSplit (cur ++ [c]) rest

/-- pol.py line 30: `chapters = re.split(r'(?=CHAPTER \d+)', content)`. -/
def chapterSplit (s : Str) : List Str := goSplit [] s

/-- The characters of `s` before the first position at which the chapter
pattern matches (the whole of `s` when it never matches).  Used to
characterise the pieces that `goSplit` produces. -/
def preChap : Str → Str
  | [] => []
  | c :: r => if chapterPat (c :: r) then [] else c :: preChap r

/-- pol.py line 38, the regex `CHAPTER \d+[:]?\s+(.*)` tried at one position:
literal `CHAPTER `, one-or-more digits (greedy), an optional colon,
one-or-more whitespace characters (greedy, may cross line breaks), then the
captured group `(.*)` running to the end of the line. -/
def titleMatchAt (s : Str) : Option Str :=
  if chapMarker.isPrefixOf s then
    match s.drop 8 with
    | d :: _ =>
      if d.isDigit then
        let r1 := (s.drop 8).dropWhile Char.isDigit
        let r2 := match r1 with
          | ':' :: t => t
          | _ => r1
        match r2 with
        | c :: _ =>
          if pyIsSpace c then some ((r2.dropWhile pyIsSpace).takeWhile (fun x => x ≠ '\n'))
          else none
        | [] => none
      else none
    | [] => none
  else none

/-- `re.search`: try the title pattern at each position, left to right, and
return the first captured group. -/
def findTitle : Str → Option Str
  | [] => none
  | c :: rest =>
    match titleMatchAt (c :: rest) with
    | some g => some g
    | none => findTitle rest

/-- pol.py line 39: the captured group stripped, or the fallback label. -/
def chapterTitle (ch : Str) : Str :=
  match findTitle ch with
  | some g => pyStrip g
  | none => toL "Unknown Chapter"

/-- One search result of `search_concepts_in_file` (pol.py lines 45-49). -/
structure SearchResult where
  chapter : Str
  content : Str
  snippets : List Str
deriving DecidableEq

/-- pol.py lines 37-49: the result built for a matching chapter.  Snippets
are the stripped lines of the chapter that contain the query
case-insensitively and do not start with `#`. -/
def mkResult (query ch : Str) : SearchResult :=
  { chapter := chapterTitle ch
    content := pyStrip ch
    snippets :=
      ((ch.splitOn '\n').filter
        (fun l => queryMatches query l && !startsWithHash l)).map pyStrip }

/-- One iteration of the `for chapter in chapters` loop (pol.py lines 33-49):
skip blank candidates, keep candidates containing the query. -/
def searchStep (query ch : Str) : Option SearchResult :=
  if (pyStrip ch).isEmpty then none
  else if queryMatches query ch then some (mkResult query ch)
  else none

/-- The pure core of `search_concepts_in_file` applied to in-memory content
(pol.py lines 29-51). -/
def search_concepts (content query : Str) : List SearchResult :=
  (chapterSplit content).filterMap (searchStep query)

/-- pol.py lines 22-51, `search_concepts_in_file(file_path, query, content)`.
The filesystem is abstracted as `fs : Str → Option Str`; `fs p = none` models
`os.path.exists(p)` returning `False`, `fs p = some c` models a readable file
with content `c`. -/
def search_concepts_in_file (fs : Str → Option Str) (file_path query : Str)
    (content : Option Str) : List SearchResult :=
  match content with
  | some c => search_concepts c query
  | none =>
    match fs file_path with
    | none => []
    | some c => search_concepts c query

/-- The character filter of `clean_text` inside `create_pdf` (pol.py
lines 195-197): keep standard printable ASCII (codes 32-126) and newlines. -/
def goodChar (c : Char) : Bool :=
  (decide (32 ≤ c.toNat) && decide (c.toNat ≤ 126)) || c = '\n'

/-- pol.py lines 195-197: `clean_text(s)` drops every character outside the
printable-ASCII-or-newline set. -/
def clean_text (s : Str) : Str := s.filter goodChar

/-- Python `s.replace('**', '')`: remove all non-overlapping occurrences of
the two-character bold marker, scanning left to right. -/
def stripBold : Str → Str
  | [] => []
  | [c] => [c]
  | c :: d :: r =>
    if c = '*' ∧ d = '*' then stripBold r
    else c :: stripBold (d :: r)

/-- pol.py line 232: `re.sub(r'^[\-\*]\s*', '', s)` — remove one leading
dash-or-star marker and the whitespace run that follows it. -/
def dropBulletMarker : Str → Str
  | c :: t => if c = '-' || c = '*' then t.dropWhile pyIsSpace else c :: t
  | [] => []

/-- The logical block a line of the note text renders as. -/
inductive Block where
  | blank : Block
  | heading (text : Str) : Block
  | bullet (text : Str) : Block
  | para (text : Str) : Block
deriving DecidableEq

/-- pol.py lines 209-246, the per-line classification of `create_pdf`:
blank lines emit spacing only; lines whose cleaned form starts with `#`
become headings (`lstrip('#').strip()`, no bold stripping); lines whose
cleaned stripped form starts with `-` or `*` become bullets (marker removed,
then `**` removed); everything else becomes a paragraph (`**` removed, then
stripped). -/
def classifyLine (line : Str) : Block :=
  if (pyStrip line).isEmpty then Block.blank
  else
    let cl := clean_text line
    if startsWithHash cl then Block.heading (pyStrip (cl.dropWhile (fun c => c = '#')))
    else if startsDash (pyStrip cl) then Block.bullet (stripBold (dropBulletMarker (pyStrip cl)))
    else Block.para (pyStrip (stripBold cl))

/-- Layout operations issued to the FPDF engine by `create_pdf`. -/
inductive RenderOp where
  | title (text : Str) : RenderOp
  | vspace (h : Nat) : RenderOp
  | heading (text : Str) : RenderOp
  | bullet (text : Str) : RenderOp
  | para (text : Str) : RenderOp
deriving DecidableEq

/-- The layout operations one line contributes (pol.py lines 209-246),
with the vertical-spacing calls surrounding headings. -/
def lineOps (line : Str) : List RenderOp :=
  match classifyLine line with
  | Block.blank => [RenderOp.vspace 4]
  | Block.heading t => [RenderOp.vspace 5, RenderOp.heading t, RenderOp.vspace 2]
  | Block.bullet t => [RenderOp.bullet t]
  | Block.para t => [RenderOp.para t]

/-- Concatenate a list of lists. -/
def concatAll : List (List α) → List α
  | [] => []
  | p :: ps => p ++ concatAll ps

/-- The full operation sequence of one `create_pdf` call (pol.py
lines 199-246): the sanitized centred title, then the classified body
lines in order. -/
def renderOps (text query : Str) : List RenderOp :=
  RenderOp.title (clean_text (toL "UPSC Polity Notes: " ++ query)) ::
    concatAll ((text.splitOn '\n').map lineOps)

/-- pol.py lines 185-250, `create_pdf(text, query)`.  The FPDF layout engine
is abstracted as `engine`, a function from the issued operation sequence to
either produced bytes or a raised diagnostic; the surrounding
`try ... except Exception as e: return None, str(e)` is the match at the
boundary. -/
def create_pdf (engine : List RenderOp → Except Str (List Nat)) (text query : Str) :
    Option (List Nat) × Option Str :=
  match engine (renderOps text query) with
  | Except.ok b => (some b, none)
  | Except.error e => (none, some e)

/-- The message returned by the API-key guards (pol.py lines 56, 99, 137). -/
def apiKeyMsg : Str := toL "Please provide a Gemini API key in the sidebar."

/-- pol.py lines 54-95, `generate_ai_notes(api_key, query, contexts)`.  The
prompt construction, network call and response of the generative-text
service are abstracted as `svc`; the `try/except` is the match. -/
def generate_ai_notes (svc : Str → Str → Except Str Str) (api_key query contexts : Str) :
    Option Str × Option Str :=
  if api_key.isEmpty then (none, some apiKeyMsg)
  else
    match svc query contexts with
    | Except.ok t => (some t, none)
    | Except.error e => (none, some (toL "Error: " ++ e))

/-- pol.py lines 97-133, `fetch_current_affairs(api_key, query)`.  The
service call plus JSON extraction is abstracted as `svc`, returning either
the parsed event list (title, relevance pairs) or an error message. -/
def fetch_current_affairs (svc : Str → Except Str (List (Str × Str))) (api_key query : Str) :
    Option (List (Str × Str)) × Option Str :=
  if api_key.isEmpty then (none, some apiKeyMsg)
  else
    match svc query with
    | Except.ok evs => (some evs, none)
    | Except.error e => (none, some e)

/-- pol.py lines 135-183, `generate_affair_notes(api_key, query, events)`.
The service call is abstracted as `svc`. -/
def generate_affair_notes (svc : Str → List (Str × Str) → Except Str Str)
    (api_key query : Str) (events : List (Str × Str)) : Option Str × Option Str :=
  if api_key.isEmpty then (none, some apiKeyMsg)
  else
    match svc query events with
    | Except.ok t => (some t, none)
    | Except.error e => (none, some e)

example : chapterSplit (toL "ab CHAPTER 1 x") = [toL "ab ", toL "CHAPTER 1 x"] := by decide

example : (search_concepts (toL "CHAPTER 1 T\n#president x") (toL "president")).map
    SearchResult.snippets = [[]] := by decide

example : classifyLine (toL "# **x**") = Block.heading (toL "**x**") := by decide

example : classifyLine (toL "- **x**") = Block.bullet (toL "x") := by decide

example : classifyLine (toL "**x**") = Block.bullet (toL "*x") := by decide

example : classifyLine (toL "a **x** b") = Block.para (toL "a x b") := by decide

/-! ### Basic string lemmas -/

theorem isPrefixOf_iff_exists : ∀ p s : Str, p.isPrefixOf s = true ↔ ∃ v, s = p ++ v := by
  intro p
  induction p with
  | nil =>
    intro s
    simp [List.isPrefixOf]
  | cons a p ih =>
    intro s
    cases s with
    | nil =>
      simp [List.isPrefixOf]
    | cons b s =>
      simp only [List.isPrefixOf, Bool.and_eq_true, beq_iff_eq, ih s]
      constructor
      · rintro ⟨rfl, v, rfl⟩
        exact ⟨v, rfl⟩
      · rintro ⟨v, hv⟩
        rw [List.cons_append] at hv
        injection hv with h1 h2
        exact ⟨h1.symm, v, h2⟩

theorem containsSubstr_iff (s q : Str) :
    containsSubstr s q = true ↔ ∃ u v, s = u ++ q ++ v := by
  induction s with
  | nil =>
    simp only [containsSubstr, isPrefixOf_iff_exists]
    constructor
    · rintro ⟨v, hv⟩
      exact ⟨[], v, by simpa using hv⟩
    · rintro ⟨u, v, h⟩
      cases u with
      | nil => exact ⟨v, by simpa using h⟩
      | cons a u => simp at h
  | cons c t ih =>
    simp only [containsSubstr, Bool.or_eq_true, isPrefixOf_iff_exists, ih]
    constructor
    · rintro (⟨v, hv⟩ | ⟨u, v, hv⟩)
      · exact ⟨[], v, by simpa using hv⟩
      · exact ⟨c :: u, v, by simp [hv]⟩
    · rintro ⟨u, v, hv⟩
      cases u with
      | nil => exact Or.inl ⟨v, by simpa using hv⟩
      | cons a u =>
        rw [List.cons_append, List.cons_append] at hv
        injection hv with h1 h2
        exact Or.inr ⟨u, v, h2⟩

theorem containsSubstr_nil (s : Str) : containsSubstr s [] = true := by
  cases s <;> simp [containsSubstr, List.isPrefixOf]

theorem queryMatches_nil_query (text : Str) : queryMatches [] text = true := by
  unfold queryMatches lowerStr
  simpa using containsSubstr_nil (text.map Char.toLower)

theorem queryMatches_of_substr {q text : Str} (h : ∃ u v, text = u ++ q ++ v) :
    queryMatches q text = true := by
  obtain ⟨u, v, rfl⟩ := h
  unfold queryMatches
  exact (containsSubstr_iff _ _).mpr ⟨lowerStr u, lowerStr v, by simp [lowerStr]⟩

/-! ### Chapter-pattern lemmas -/

theorem chapterPat_iff (s : Str) :
    chapterPat s = true ↔ ∃ d t, s = chapMarker ++ d :: t ∧ d.isDigit = true := by
  unfold chapterPat
  simp only [Bool.and_eq_true, isPrefixOf_iff_exists]
  constructor
  · rintro ⟨⟨v, rfl⟩, hd⟩
    have hv : (chapMarker ++ v).drop 8 = v := by
      have h8 : (8 : Nat) = chapMarker.length := rfl
      rw [h8]
      exact List.drop_left chapMarker v
    rw [hv] at hd
    cases v with
    | nil => simp [digitAfter] at hd
    | cons d t => exact ⟨d, t, rfl, by simpa [digitAfter] using hd⟩
  · rintro ⟨d, t, rfl, hd⟩
    refine ⟨⟨d :: t, rfl⟩, ?_⟩
    have hv : (chapMarker ++ d :: t).drop 8 = d :: t := by
      have h8 : (8 : Nat) = chapMarker.length := rfl
      rw [h8]
      exact List.drop_left chapMarker (d :: t)
    rw [hv]
    simpa [digitAfter] using hd

theorem chapterPat_head {c : Char} {t : Str} (h : chapterPat (c :: t) = true) : c = 'C' := by
  obtain ⟨d, t', he, _⟩ := (chapterPat_iff _).mp h
  simp only [chapMarker, List.cons_append, List.cons.injEq] at he
  exact he.1

theorem chapterPat_eq_false_of_head {c : Char} (t : Str) (h : c ≠ 'C') :
    chapterPat (c :: t) = false := by
  cases hp : chapterPat (c :: t)
  · rfl
  · exact absurd (chapterPat_head hp) h

theorem digit_ne_C {d : Char} (hd : d.isDigit = true) : d ≠ 'C' := by
  intro h
  rw [h] at hd
  exact absurd hd (by decide)

theorem chapterPat_append {a : Str} (b : Str) (h : chapterPat a = true) :
    chapterPat (a ++ b) = true := by
  obtain ⟨d, t, rfl, hd⟩ := (chapterPat_iff _).mp h
  exact (chapterPat_iff _).mpr ⟨d, t ++ b, by simp, hd⟩

/-! ### Lemmas about the split scanner -/

theorem dropAppendOfLe : ∀ (l₁ l₂ : List Char) (i : Nat), i ≤ l₁.length →
    (l₁ ++ l₂).drop i = l₁.drop i ++ l₂ := by
  intro l₁
  induction l₁ with
  | nil =>
    intro l₂ i hi
    have h0 : i = 0 := Nat.le_zero.mp hi
    subst h0
    simp
  | cons a l₁ ih =>
    intro l₂ i hi
    cases i with
    | zero => simp
    | succ i => simpa using ih l₂ i (by simpa using hi)

theorem preChap_cons_of_false {c : Char} {r : Str} (h : chapterPat (c :: r) = false) :
    preChap (c :: r) = c :: preChap r := by
  simp [preChap, h]

theorem preChap_pre : ∀ s : Str, ∃ v, s = preChap s ++ v := by
  intro s
  induction s with
  | nil => exact ⟨[], rfl⟩
  | cons c r ih =>
    by_cases h : chapterPat (c :: r) = true
    · exact ⟨c :: r, by simp [preChap, h]⟩
    · obtain ⟨v, hv⟩ := ih
      refine ⟨v, ?_⟩
      rw [preChap_cons_of_false (by simpa using h), List.cons_append]
      exact congrArg (List.cons c) hv

theorem preChap_sound : ∀ (s : Str) (i : Nat), i < (preChap s).length →
    chapterPat (s.drop i) = false := by
  intro s
  induction s with
  | nil =>
    intro i h
    simp [preChap] at h
  | cons c r ih =>
    intro i h
    by_cases hp : chapterPat (c :: r) = true
    · simp [preChap, hp] at h
    · have hp' : chapterPat (c :: r) = false := by simpa using hp
      rw [preChap_cons_of_false hp'] at h
      cases i with
      | zero => simpa using hp'
      | succ i =>
        simp only [List.length_cons, Nat.succ_lt_succ_iff] at h
        simpa using ih i h

theorem preChap_noPat (s : Str) (i : Nat) : chapterPat ((preChap s).drop i) = false := by
  by_cases h : i < (preChap s).length
  · cases hp : chapterPat ((preChap s).drop i)
    · rfl
    · exfalso
      obtain ⟨v, hv⟩ := preChap_pre s
      have hdrop : s.drop i = (preChap s).drop i ++ v := by
        conv_lhs => rw [hv]
        exact dropAppendOfLe _ _ i (Nat.le_of_lt h)
      have hext : chapterPat (s.drop i) = true := by
        rw [hdrop]
        exact chapterPat_append v hp
      rw [preChap_sound s i h] at hext
      exact Bool.false_ne_true hext
  · have hnil : (preChap s).drop i = [] :=
      List.drop_of_length_le (Nat.le_of_not_lt h)
    rw [hnil]
    decide

theorem preChap_of_pat {d : Char} (hd : d.isDigit = true) (t : Str) :
    preChap ('H' :: 'A' :: 'P' :: 'T' :: 'E' :: 'R' :: ' ' :: d :: t) =
      'H' :: 'A' :: 'P' :: 'T' :: 'E' :: 'R' :: ' ' :: d :: preChap t := by
  rw [preChap_cons_of_false (chapterPat_eq_false_of_head _ (by decide)),
    preChap_cons_of_false (chapterPat_eq_false_of_head _ (by decide)),
    preChap_cons_of_false (chapterPat_eq_false_of_head _ (by decide)),
    preChap_cons_of_false (chapterPat_eq_false_of_head _ (by decide)),
    preChap_cons_of_false (chapterPat_eq_false_of_head _ (by decide)),
    preChap_cons_of_false (chapterPat_eq_false_of_head _ (by decide)),
    preChap_cons_of_false (chapterPat_eq_false_of_head _ (by decide)),
    preChap_cons_of_false (chapterPat_eq_false_of_head _ (digit_ne_C hd))]

theorem chapterPat_cons_preChap {c : Char} {r : Str} (h : chapterPat (c :: r) = true) :
    chapterPat (c :: preChap r) = true := by
  obtain ⟨d, t, he, hd⟩ := (chapterPat_iff _).mp h
  simp only [chapMarker, List.cons_append, List.nil_append, List.cons.injEq] at he
  obtain ⟨rfl, rfl⟩ := he
  rw [preChap_of_pat hd]
  exact (chapterPat_iff _).mpr ⟨d, preChap t, by simp [chapMarker], hd⟩

theorem goSplit_join : ∀ (s cur : Str), concatAll (goSplit cur s) = cur ++ s := by
  intro s
  induction s with
  | nil =>
    intro cur
    simp [goSplit, concatAll]
  | cons c r ih =>
    intro cur
    by_cases h : chapterPat (c :: r) = true
    · simp only [goSplit, h, if_true, concatAll, ih [c]]
      simp
    · have h' : chapterPat (c :: r) = false := by simpa using h
      simp only [goSplit, h', Bool.false_eq_true, if_false, ih (cur ++ [c])]
      simp

theorem goSplit_head : ∀ (s cur : Str), ∃ ps, goSplit cur s = (cur ++ preChap s) :: ps := by
  intro s
  induction s with
  | nil =>
    intro cur
    exact ⟨[], by simp [goSplit, preChap]⟩
  | cons c r ih =>
    intro cur
    by_cases h : chapterPat (c :: r) = true
    · exact ⟨goSplit [c] r, by simp [goSplit, h, preChap]⟩
    · have h' : chapterPat (c :: r) = false := by simpa using h
      obtain ⟨ps, hps⟩ := ih (cur ++ [c])
      refine ⟨ps, ?_⟩
      rw [preChap_cons_of_false h']
      simp only [goSplit, h', Bool.false_eq_true, if_false]
      rw [hps]
      simp

theorem goSplit_tail : ∀ (s cur : Str), ∀ p ∈ (goSplit cur s).tail,
    chapterPat p = true ∧ ∀ i, 0 < i → chapterPat (p.drop i) = false := by
  intro s
  induction s with
  | nil =>
    intro cur p hp
    simp [goSplit] at hp
  | cons c r ih =>
    intro cur p hp
    by_cases h : chapterPat (c :: r) = true
    · simp only [goSplit, h, if_true, List.tail_cons] at hp
      obtain ⟨ps, hps⟩ := goSplit_head r [c]
      rw [hps] at hp
      rcases List.mem_cons.mp hp with rfl | htail
      · constructor
        · exact chapterPat_cons_preChap h
        · intro i hi
          cases i with
          | zero => exact absurd hi (Nat.lt_irrefl 0)
          | succ i =>
            have : (([c] ++ preChap r).drop (i + 1)) = (preChap r).drop i := by simp
            rw [this]
            exact preChap_noPat r i
      · refine ih [c] p ?_
        rw [hps]
        simpa using htail
    · have h' : chapterPat (c :: r) = false := by simpa using h
      simp only [goSplit, h', Bool.false_eq_true, if_false] at hp
      exact ih (cur ++ [c]) p hp

/-! ### Correspondence between the loop body and a filter -/

theorem filterMap_searchStep_content (q : Str) : ∀ l : List Str,
    (l.filterMap (searchStep q)).map SearchResult.content =
      (l.filter (fun ch => !(pyStrip ch).isEmpty && queryMatches q ch)).map pyStrip := by
  intro l
  induction l with
  | nil => rfl
  | cons ch t ih =>
    by_cases h1 : (pyStrip ch).isEmpty = true
    · simp [List.filterMap_cons, List.filter_cons, searchStep, h1, ih]
    · have h1' : (pyStrip ch).isEmpty = false := by simpa using h1
      by_cases h2 : queryMatches q ch = true
      · simp [List.filterMap_cons, List.filter_cons, searchStep, h1', h2, ih, mkResult]
      · have h2' : queryMatches q ch = false := by simpa using h2
        simp [List.filterMap_cons, List.filter_cons, searchStep, h1', h2', ih]

/-! ### Claims about the search engine -/

/-- C1, counterexample: the chapter-pattern occurrence in
`ab CHAPTER 1 x` is mid-line (preceded by a space, not a line start), yet
the split of pol.py line 30 places a boundary immediately before it, because
the regex `(?=CHAPTER \d+)` carries no line-start anchor. -/
theorem c1_counterexample :
    chapterSplit (toL "ab CHAPTER 1 x") = [toL "ab ", toL "CHAPTER 1 x"] ∧
    chapterSplit (toL "ab CHAPTER 1 x") ≠ [toL "ab CHAPTER 1 x"] := by
  constructor
  · decide
  · decide

/-- C1, amended: the chapter-partitioning step places a boundary exactly
immediately before each occurrence of `CHAPTER ` followed by a digit,
wherever that occurrence lies (line start or mid-line): the pieces
concatenate back to the document, every piece after the first starts with
the pattern, and no piece contains the pattern anywhere past its start (the
first piece contains it nowhere at all). -/
theorem c1_boundaries (content : Str) :
    concatAll (chapterSplit content) = content ∧
    (∀ i, chapterPat (((chapterSplit content).headD []).drop i) = false) ∧
    (∀ p ∈ (chapterSplit content).tail, chapterPat p = true ∧
      ∀ i, 0 < i → chapterPat (p.drop i) = false) := by
  refine ⟨?_, ?_, ?_⟩
  · simpa using goSplit_join content []
  · intro i
    obtain ⟨ps, hps⟩ := goSplit_head content []
    unfold chapterSplit
    rw [hps]
    simpa using preChap_noPat content i
  · intro p hp
    exact goSplit_tail content [] p hp

/-- C1, witness: on a document with a mid-line marker and a later marker,
the amended theorem yields that the second piece starts with the pattern
and has no internal occurrence. -/
theorem c1_boundaries_witness :
    chapterPat (toL "CHAPTER 2 b") = true ∧
    chapterPat ((toL "CHAPTER 2 b").drop 1) = false := by
  have h := (c1_boundaries (toL "xCHAPTER 1 a CHAPTER 2 b")).2.2 (toL "CHAPTER 2 b")
    (by decide)
  exact ⟨h.1, h.2 1 (by decide)⟩

/-- C2, counterexample: for the document `CHAPTER 1 T\n#president x` and
query `president`, the query occurs only in a line starting with `#`, yet
the chapter is included in the results — with an empty snippet list. -/
theorem c2_counterexample :
    (search_concepts (toL "CHAPTER 1 T\n#president x") (toL "president")).map
      SearchResult.snippets = [[]] := by
  decide

/-- C2, amended: a non-blank chapter candidate whose full text contains the
query case-insensitively is always included in the results, even when every
line containing the query starts with `#`; such a result then carries an
empty snippet list. -/
theorem c2_membership (D q ch : Str) (hmem : ch ∈ chapterSplit D)
    (hblank : (pyStrip ch).isEmpty = false) (hmatch : queryMatches q ch = true) :
    mkResult q ch ∈ search_concepts D q := by
  unfold search_concepts
  refine List.mem_filterMap.mpr ⟨ch, hmem, ?_⟩
  simp [searchStep, hblank, hmatch]

/-- C2, witness: the amended theorem applied to the counterexample
document. -/
theorem c2_membership_witness :
    mkResult (toL "president") (toL "CHAPTER 1 T\n#president x") ∈
      search_concepts (toL "CHAPTER 1 T\n#president x") (toL "president") :=
  c2_membership _ _ _ (by decide) (by decide) (by decide)

/-- C3, counterexample: with the empty query, a document with one non-blank
chapter yields a non-empty result list, not the empty sequence. -/
theorem c3_counterexample :
    search_concepts (toL "CHAPTER 1 T\nx") [] ≠ [] := by
  decide

/-- C3, amended: invoked with the empty-string query, the search returns one
result per non-blank chapter candidate (the empty string is a substring of
everything), so the result list is empty only when the document has no
non-blank chapter. -/
theorem c3_empty_query (D : Str) :
    (search_concepts D []).map SearchResult.content =
      ((chapterSplit D).filter (fun ch => !(pyStrip ch).isEmpty)).map pyStrip := by
  have h := filterMap_searchStep_content [] (chapterSplit D)
  rw [show search_concepts D [] = (chapterSplit D).filterMap (searchStep []) from rfl, h]
  have hf : (chapterSplit D).filter (fun ch => !(pyStrip ch).isEmpty && queryMatches [] ch) =
      (chapterSplit D).filter (fun ch => !(pyStrip ch).isEmpty) := by
    apply List.filter_congr
    intro ch _
    simp [queryMatches_nil_query]
  rw [hf]

/-- C4: the matching step treats the query as a literal substring, never as
a regex pattern: any text containing the query literally matches, and the
document `see axb here` does not match the query `a.b` even though the
regex reading of `a.b` would accept `axb`. -/
theorem c4_literal_matching :
    (∀ text q : Str, (∃ u v, text = u ++ q ++ v) → queryMatches q text = true) ∧
    search_concepts (toL "CHAPTER 1 t\nsee a.b here") (toL "a.b") ≠ [] ∧
    search_concepts (toL "CHAPTER 1 t\nsee axb here") (toL "a.b") = [] := by
  refine ⟨?_, by decide, by decide⟩
  intro text q h
  exact queryMatches_of_substr h

/-- C4, witness: the literal-containment half applied to a concrete text
containing `a.b`. -/
theorem c4_witness : queryMatches (toL "a.b") (toL "xa.by") = true :=
  c4_literal_matching.1 (toL "xa.by") (toL "a.b") ⟨toL "x", toL "y", by decide⟩

/-- C5: for a non-empty query the result contents are exactly the stripped
non-blank chapter candidates, in document order, whose text contains the
query case-insensitively. -/
theorem c5_results_are_matching_chapters (D q : Str) (_hq : q ≠ []) :
    (search_concepts D q).map SearchResult.content =
      ((chapterSplit D).filter
        (fun ch => !(pyStrip ch).isEmpty && queryMatches q ch)).map pyStrip :=
  filterMap_searchStep_content q (chapterSplit D)

/-- C5, witness: the correspondence evaluated on a two-chapter document. -/
theorem c5_witness :
    (search_concepts (toL "CHAPTER 1: Alpha\nThe President here\nCHAPTER 2: Beta\nnothing")
        (toL "president")).map SearchResult.content =
      ((chapterSplit (toL "CHAPTER 1: Alpha\nThe President here\nCHAPTER 2: Beta\nnothing")).filter
        (fun ch => !(pyStrip ch).isEmpty && queryMatches (toL "president") ch)).map pyStrip :=
  c5_results_are_matching_chapters _ _ (by decide)

/-- C9: with `content = None` and a file path that does not exist, the
function returns the empty list instead of raising. -/
theorem c9_missing_file (fs : Str → Option Str) (file_path query : Str)
    (h : fs file_path = none) :
    search_concepts_in_file fs file_path query none = [] := by
  simp [search_concepts_in_file, h]

/-- C9, witness: an empty filesystem. -/
theorem c9_missing_file_witness :
    search_concepts_in_file (fun _ => none) (toL "pol.txt") (toL "president") none = [] :=
  c9_missing_file _ _ _ rfl

/-- C10: whenever the API key is empty, each of the three AI helpers
returns `(None, <ask-for-key message>)` without invoking the external
generative-text service (the conclusion holds for every possible service
behaviour, so the service is never consulted). -/
theorem c10_api_key_guard (svc1 : Str → Str → Except Str Str)
    (svc2 : Str → Except Str (List (Str × Str)))
    (svc3 : Str → List (Str × Str) → Except Str Str)
    (api_key query contexts : Str) (events : List (Str × Str))
    (h : api_key.isEmpty = true) :
    generate_ai_notes svc1 api_key query contexts = (none, some apiKeyMsg) ∧
    fetch_current_affairs svc2 api_key query = (none, some apiKeyMsg) ∧
    generate_affair_notes svc3 api_key query events = (none, some apiKeyMsg) := by
  refine ⟨?_, ?_, ?_⟩ <;>
    simp [generate_ai_notes, fetch_current_affairs, generate_affair_notes, h]

/-- C10, witness: the guard evaluated with concrete failing services and the
empty key. -/
theorem c10_api_key_guard_witness :
    generate_ai_notes (fun _ _ => Except.error []) [] (toL "q") (toL "c") =
      (none, some apiKeyMsg) ∧
    fetch_current_affairs (fun _ => Except.error []) [] (toL "q") = (none, some apiKeyMsg) ∧
    generate_affair_notes (fun _ _ => Except.error []) [] (toL "q") [] =
      (none, some apiKeyMsg) :=
  c10_api_key_guard _ _ _ [] (toL "q") (toL "c") [] rfl

/-- C6: `create_pdf` converts every engine outcome into a pair — produced
bytes with no error on success, or `None` with the diagnostic message of
the fault; no exception crosses the boundary. -/
theorem c6_fault_boundary (engine : List RenderOp → Except Str (List Nat)) (text query : Str) :
    (∃ b, engine (renderOps text query) = Except.ok b ∧
      create_pdf engine text query = (some b, none)) ∨
    (∃ m, engine (renderOps text query) = Except.error m ∧
      create_pdf engine text query = (none, some m)) := by
  cases h : engine (renderOps text query) with
  | ok b => exact Or.inl ⟨b, rfl, by simp [create_pdf, h]⟩
  | error e => exact Or.inr ⟨e, rfl, by simp [create_pdf, h]⟩

/-! ### Bold-marker stripping leaves no double star -/

theorem stripBold_head_ne_star {d : Char} (hd : d ≠ '*') (r : Str) :
    ∃ l, stripBold (d :: r) = d :: l := by
  cases r with
  | nil => exact ⟨[], rfl⟩
  | cons e r' =>
    refine ⟨stripBold (e :: r'), ?_⟩
    simp only [stripBold]
    rw [if_neg (fun hc => hd hc.1)]

theorem stripBold_no_dd_aux : ∀ n : Nat, ∀ s : Str, s.length ≤ n →
    ∀ u v : Str, stripBold s ≠ u ++ '*' :: '*' :: v := by
  intro n
  induction n with
  | zero =>
    intro s hs u v h
    have h0 : s = [] := List.length_eq_zero.mp (Nat.le_zero.mp hs)
    subst h0
    simp [stripBold] at h
  | succ n ih =>
    intro s hs u v h
    match s with
    | [] => simp [stripBold] at h
    | [c] =>
      have hlen := congrArg List.length h
      simp [stripBold] at hlen
      omega
    | c :: d :: r =>
      by_cases hcd : c = '*' ∧ d = '*'
      · rw [show stripBold (c :: d :: r) = stripBold r by simp [stripBold, hcd]] at h
        have hr : r.length ≤ n := by
          simp only [List.length_cons] at hs
          omega
        exact ih r hr u v h
      · rw [show stripBold (c :: d :: r) = c :: stripBold (d :: r) by
          simp only [stripBold]; rw [if_neg hcd]] at h
        cases u with
        | nil =>
          simp only [List.nil_append, List.cons.injEq] at h
          obtain ⟨hc, hrest⟩ := h
          have hd : d ≠ '*' := fun hdd => hcd ⟨hc, hdd⟩
          obtain ⟨l, hl⟩ := stripBold_head_ne_star hd r
          rw [hl] at hrest
          simp only [List.cons.injEq] at hrest
          exact hd hrest.1
        | cons a u' =>
          simp only [List.cons_append, List.cons.injEq] at h
          have hdr : (d :: r).length ≤ n := by
            simp only [List.length_cons] at hs ⊢
            omega
          exact ih (d :: r) hdr u' v h.2

theorem stripBold_no_double (s : Str) : ∀ u v : Str, stripBold s ≠ u ++ '*' :: '*' :: v :=
  stripBold_no_dd_aux s.length s (Nat.le_refl _)

theorem containsSubstr_dd_false_of (t : Str) (h : ∀ u v : Str, t ≠ u ++ '*' :: '*' :: v) :
    containsSubstr t (toL "**") = false := by
  cases hc : containsSubstr t (toL "**")
  · rfl
  · exfalso
    obtain ⟨u, v, hd⟩ := (containsSubstr_iff t (toL "**")).mp hc
    have hss : toL "**" = ['*', '*'] := rfl
    rw [hss] at hd
    exact h u v (by simpa using hd)

theorem pyStrip_middle (l : Str) : ∃ a b : Str, l = a ++ pyStrip l ++ b := by
  refine ⟨l.takeWhile pyIsSpace,
    ((l.dropWhile pyIsSpace).reverse.takeWhile pyIsSpace).reverse, ?_⟩
  have hm2 : l.dropWhile pyIsSpace =
      ((l.dropWhile pyIsSpace).reverse.dropWhile pyIsSpace).reverse ++
        ((l.dropWhile pyIsSpace).reverse.takeWhile pyIsSpace).reverse := by
    have hm : (l.dropWhile pyIsSpace).reverse.takeWhile pyIsSpace ++
        (l.dropWhile pyIsSpace).reverse.dropWhile pyIsSpace =
          (l.dropWhile pyIsSpace).reverse :=
      List.takeWhile_append_dropWhile pyIsSpace (l.dropWhile pyIsSpace).reverse
    have h2 := congrArg List.reverse hm
    rw [List.reverse_append, List.reverse_reverse] at h2
    exact h2.symm
  have h0 : l = l.takeWhile pyIsSpace ++ l.dropWhile pyIsSpace :=
    (List.takeWhile_append_dropWhile pyIsSpace l).symm
  conv_lhs => rw [h0, hm2]
  unfold pyStrip
  simp [List.append_assoc]

theorem pyStrip_no_dd {x : Str} (h : ∀ u v : Str, x ≠ u ++ '*' :: '*' :: v) :
    ∀ u v : Str, pyStrip x ≠ u ++ '*' :: '*' :: v := by
  intro u v hc
  obtain ⟨a, b, hab⟩ := pyStrip_middle x
  rw [hc] at hab
  refine h (a ++ u) (v ++ b) ?_
  rw [hab]
  simp [List.append_assoc]

/-! ### Claims about the renderer text transformation -/

/-- C7, counterexample: the heading branch of `create_pdf` does not strip
bold markers — the line `# **x**` renders as the heading text `**x**`,
which still contains the literal `**`. -/
theorem c7_counterexample :
    classifyLine (toL "# **x**") = Block.heading (toL "**x**") ∧
    containsSubstr (toL "**x**") (toL "**") = true := by
  constructor
  · decide
  · decide

/-- C7, amended: bullet and paragraph blocks have all `**` sequences
removed (their rendered text never contains a literal `**`), and the
removal is exact on representative inputs; heading blocks keep their `**`
sequences verbatim. -/
theorem c7_bold_stripping :
    (∀ line t, classifyLine line = Block.bullet t → containsSubstr t (toL "**") = false) ∧
    (∀ line t, classifyLine line = Block.para t → containsSubstr t (toL "**") = false) ∧
    classifyLine (toL "- **x**") = Block.bullet (toL "x") ∧
    classifyLine (toL "a **x** b") = Block.para (toL "a x b") ∧
    classifyLine (toL "# **x**") = Block.heading (toL "**x**") := by
  refine ⟨?_, ?_, by decide, by decide, by decide⟩
  · intro line t hcl
    unfold classifyLine at hcl
    by_cases h1 : (pyStrip line).isEmpty = true
    · rw [if_pos h1] at hcl
      exact absurd hcl (by simp)
    · rw [if_neg h1] at hcl
      by_cases h2 : startsWithHash (clean_text line) = true
      · rw [if_pos h2] at hcl
        exact absurd hcl (by simp)
      · rw [if_neg h2] at hcl
        by_cases h3 : startsDash (pyStrip (clean_text line)) = true
        · rw [if_pos h3] at hcl
          simp only [Block.bullet.injEq] at hcl
          rw [← hcl]
          exact containsSubstr_dd_false_of _ (stripBold_no_double _)
        · rw [if_neg h3] at hcl
          exact absurd hcl (by simp)
  · intro line t hcl
    unfold classifyLine at hcl
    by_cases h1 : (pyStrip line).isEmpty = true
    · rw [if_pos h1] at hcl
      exact absurd hcl (by simp)
    · rw [if_neg h1] at hcl
      by_cases h2 : startsWithHash (clean_text line) = true
      · rw [if_pos h2] at hcl
        exact absurd hcl (by simp)
      · rw [if_neg h2] at hcl
        by_cases h3 : startsDash (pyStrip (clean_text line)) = true
        · rw [if_pos h3] at hcl
          exact absurd hcl (by simp)
        · rw [if_neg h3] at hcl
          simp only [Block.para.injEq] at hcl
          rw [← hcl]
          exact containsSubstr_dd_false_of _ (pyStrip_no_dd (stripBold_no_double _))

/-- C7, witness: the bullet half applied to the line `- **x**`. -/
theorem c7_witness : containsSubstr (toL "x") (toL "**") = false :=
  c7_bold_stripping.1 (toL "- **x**") (toL "x") (by decide)

/-! ### The sanitizer -/

theorem goodChar_iff (c : Char) :
    goodChar c = true ↔ (32 ≤ c.toNat ∧ c.toNat ≤ 126) ∨ c = '\n' := by
  simp [goodChar]

theorem count_filter_true (p : Char → Bool) (c : Char) (hc : p c = true) :
    ∀ l : List Char, (l.filter p).count c = l.count c := by
  intro l
  induction l with
  | nil => rfl
  | cons a t ih =>
    by_cases hac : a = c
    · subst hac
      simp [List.filter_cons, hc, List.count_cons, ih]
    · cases hpa : p a
      · simp [List.filter_cons, hpa, List.count_cons, hac, ih, Ne.symm hac]
      · simp [List.filter_cons, hpa, List.count_cons, hac, ih, Ne.symm hac]

theorem count_filter_false (p : Char → Bool) (c : Char) (hc : p c = false)
    (l : List Char) : (l.filter p).count c = 0 := by
  rw [List.count_eq_zero]
  intro hmem
  have hm := List.mem_filter.mp hmem
  rw [hc] at hm
  exact Bool.false_ne_true hm.2

/-- C8: `clean_text` keeps exactly the characters with code 32-126 or the
newline, in their original order (a sublist of the input with exact
per-character counts); every character outside the set is dropped and
nothing is substituted in its place. -/
theorem c8_clean_text (s : Str) :
    List.Sublist (clean_text s) s ∧
    (∀ c, c ∈ clean_text s → (32 ≤ c.toNat ∧ c.toNat ≤ 126) ∨ c = '\n') ∧
    (∀ c, ((32 ≤ c.toNat ∧ c.toNat ≤ 126) ∨ c = '\n') →
      (clean_text s).count c = s.count c) ∧
    (∀ c, ¬ ((32 ≤ c.toNat ∧ c.toNat ≤ 126) ∨ c = '\n') →
      (clean_text s).count c = 0) := by
  refine ⟨List.filter_sublist s, ?_, ?_, ?_⟩
  · intro c hc
    exact (goodChar_iff c).mp (List.mem_filter.mp hc).2
  · intro c hc
    exact count_filter_true goodChar c ((goodChar_iff c).mpr hc) s
  · intro c hc
    have hg : goodChar c = false := by
      cases hgc : goodChar c
      · rfl
      · exact absurd ((goodChar_iff c).mp hgc) hc
    exact count_filter_false goodChar c hg s

/-- C8, witness: the kept-count and dropped-count halves evaluated on a
string containing a non-ASCII character. -/
theorem c8_clean_text_witness :
    (clean_text (toL "abé\nc")).count 'a' = (toL "abé\nc").count 'a' ∧
    (clean_text (toL "abé\nc")).count 'é' = 0 :=
  ⟨(c8_clean_text (toL "abé\nc")).2.2.1 'a' (by decide),
    (c8_clean_text (toL "abé\nc")).2.2.2 'é' (by decide)⟩
